import Mathlib

/-!
Shallow embedding of the queue-management core of the `orderly` repository
(`queue_system.py`, plus the join route of `app.py`).

Strings are modelled as lists of characters (`Str`), timestamps as natural
numbers supplied by the caller (`now`), and the randomly generated id
fragments (`uuid.uuid4()`) as oracle inputs.  The storage layer (DynamoDB /
local JSON file) is modelled explicitly for the write-path claims: a
`Storage` world says which backend is configured and whether its writes
succeed, and each persisting operation returns the list of attempted write
events together with an `Except`-typed outcome (`Except.error` = a Python
exception escaping to the caller, `Except.ok` = a normal return value).
-/

abbrev Str := List Char

/-- Entry status: `'waiting' | 'served' | 'left'` (comment in `join_queue`). -/
inductive Status where
  | waiting
  | served
  | left
deriving DecidableEq, Repr

/-- One queue entry, as built by `QueueSystem.join_queue`.
(The optional QR/receipt asset fields that the core never interprets are
modelled by `receipt_path` only; `receipt_path` stores the already-resolved
reference, cf. `_save_receipt_file` which is external I/O.) -/
structure Entry where
  id : Str
  user_name : Str
  phone : Str
  notes : Str
  receipt_path : Option Str
  position : Nat
  joined_at : Nat
  status : Status
  served_at : Option Nat := none
  left_at : Option Nat := none
deriving DecidableEq, Repr

/-- One location record, as built by `QueueSystem.create_location`
(QR-code path fields and `created_by` are inert metadata and omitted). -/
structure Location where
  location_id : Str
  name : Str
  description : Str
  capacity : Nat
  current_queue : List Entry
  served_count : Nat
  created_at : Nat
  updated_at : Nat
deriving DecidableEq, Repr

/-- `create_location`: fresh location with empty queue and zero counters. -/
def create_location (location_id name description : Str) (capacity : Nat) (now : Nat) : Location :=
  { location_id := location_id, name := name, description := description,
    capacity := capacity, current_queue := [], served_count := 0,
    created_at := now, updated_at := now }

/-- The `waiting` entries of a queue list:
`[e for e in q if e.get('status') == 'waiting']`. -/
def waitingQ (q : List Entry) : List Entry :=
  q.filter (fun e => e.status == Status.waiting)

/-- Positions of the `waiting` entries, in queue (insertion) order. -/
def waitingPositionsQ (q : List Entry) : List Nat :=
  (waitingQ q).map Entry.position

/-- The spec's position invariant for one queue list: the positions of the
`waiting` entries form the contiguous sequence `1..N` with no gaps or
duplicates (stated as a permutation of `List.range' 1 N`). -/
def positionsOkQ (q : List Entry) : Prop :=
  List.Perm (waitingPositionsQ q) (List.range' 1 (waitingQ q).length)

instance (q : List Entry) : Decidable (positionsOkQ q) := by
  unfold positionsOkQ; infer_instance

/-- Comparison used by the Python code's `sort(key=lambda x: x.get('position', 0))`
on `(index, entry)` pairs.  Python's sort is stable and ascending, which
determines its output uniquely, so it is modelled by the stable
`List.insertionSort` under this relation. -/
def posLeR (a b : Nat × Entry) : Prop :=
  a.2.position ≤ b.2.position

instance : DecidableRel posLeR := fun a b => by
  unfold posLeR; infer_instance

instance : IsTotal (Nat × Entry) posLeR :=
  ⟨fun a b => Nat.le_total a.2.position b.2.position⟩

instance : IsTrans (Nat × Entry) posLeR :=
  ⟨fun _ _ _ hab hbc => Nat.le_trans hab hbc⟩

/-- The `waiting` entries of a queue paired with their queue index; an
entry's identity in the Python code is its dict object, i.e. its index in
`current_queue`. -/
def waitPairs (q : List Entry) : List (Nat × Entry) :=
  q.enum.filter (fun p => p.2.status == Status.waiting)

/-- Queue indices of the waiting entries, in ascending order of their
current `position` (stable for ties, like Python's `sorted`). -/
def sortedWaitIdx (q : List Entry) : List Nat :=
  ((waitPairs q).insertionSort posLeR).map Prod.fst

/-- Position of a value in a list (0-based); the rank handed out by
`enumerate(sorted(...), 1)` to the waiting entry whose queue index is `i`
is `idxRank (sortedWaitIdx q) i + 1`. -/
def idxRank : List Nat → Nat → Nat
  | [], _ => 0
  | j :: rest, i => if i = j then 0 else idxRank rest i + 1

/-- New value of one queue slot under re-normalisation: a waiting entry
gets `position` = its 1-based rank in the sorted waiting list, any other
entry is untouched. -/
def renumberEntry (idx : List Nat) (p : Nat × Entry) : Entry :=
  if p.2.status == Status.waiting then
    { p.2 with position := idxRank idx p.1 + 1 }
  else p.2

/-- The position re-normalisation step of `leave_queue`:

    waiting_entries = [e for e in location['current_queue'] if e.get('status') == 'waiting']
    for pos, e in enumerate(sorted(waiting_entries, key=lambda x: x.get('position', 0)), 1):
        e['position'] = pos

Python mutates the entry dicts through references, so each waiting entry's
new position is its rank in the stable sort of the waiting entries by old
position. -/
def renumber (q : List Entry) : List Entry :=
  q.enum.map (renumberEntry (sortedWaitIdx q))

/-- `QueueSystem.join_queue`, pure in-memory effect on one location record
(the persistence step is modelled separately, see `join_queue_io`).
`unique_id` stands for the generated `str(uuid.uuid4())`. -/
def join_queue (loc : Location) (user_name phone notes : Str) (receipt_path : Option Str)
    (unique_id : Str) (now : Nat) : Str × Location :=
  let queue_id := loc.location_id.take 8 ++ ('-' :: unique_id.take 8)
  let position := (waitingQ loc.current_queue).length + 1
  let entry : Entry :=
    { id := queue_id, user_name := user_name, phone := phone, notes := notes,
      receipt_path := receipt_path, position := position, joined_at := now,
      status := Status.waiting }
  (queue_id, { loc with current_queue := loc.current_queue ++ [entry], updated_at := now })

/-- `entry['status'] = 'left'; entry['left_at'] = ...` applied to the queue
slot with index `i`, all other slots untouched. -/
def markLeft (i now : Nat) (p : Nat × Entry) : Entry :=
  if p.1 == i then { p.2 with status := Status.left, left_at := some now } else p.2

/-- `QueueSystem.leave_queue`, pure in-memory effect: find the first entry
with the given id that is still `waiting`, mark it `left`, stamp `left_at`,
and re-normalise the remaining waiting positions; `false` when no such
entry exists. -/
def leave_queue (loc : Location) (queue_id : Str) (now : Nat) : Bool × Location :=
  match loc.current_queue.enum.find?
      (fun p => p.2.id == queue_id && p.2.status == Status.waiting) with
  | none => (false, loc)
  | some found =>
    let marked := loc.current_queue.enum.map (markLeft found.1 now)
    (true, { loc with current_queue := renumber marked, updated_at := now })

/-- `QueueSystem.serve_next`, pure in-memory effect: take the head of the
waiting entries sorted by position, mark it `served`, stamp `served_at`,
increment `served_count`; `none` (and an unchanged record) when nobody is
waiting.  Note: it does not re-normalise the other waiting positions. -/
def serve_next (loc : Location) (now : Nat) : Option Entry × Location :=
  match (waitPairs loc.current_queue).insertionSort posLeR with
  | [] => (none, loc)
  | found :: _ =>
    let next_person : Entry :=
      { found.2 with status := Status.served, served_at := some now }
    let q := loc.current_queue.enum.map (fun p =>
      if p.1 == found.1 then next_person else p.2)
    let loc2 : Location :=
      { loc with
        current_queue := q
        served_count := loc.served_count + 1
        updated_at := now }
    (some next_person, loc2)

/-- `QueueSystem._estimate_wait_time`: 5 minutes per person. -/
def estimate_wait_time (position : Nat) : Nat :=
  position * 5

/-- Result record of `get_queue_position`. -/
structure PositionInfo where
  position : Nat
  total_in_queue : Nat
  user_name : Str
  joined_at : Nat
  estimated_wait : Nat
deriving DecidableEq, Repr

/-- `self.queues`: Python dict from location id to location record, modelled
as an association list in insertion order (dicts iterate in insertion
order).  `get_location` is `self.queues.get(location_id)`. -/
def get_location (queues : List (Str × Location)) (location_id : Str) : Option Location :=
  (queues.find? (fun p => p.1 == location_id)).map Prod.snd

/-- `QueueSystem.get_queue_position`: position report for one entry; `none`
unless the entry exists and is still `waiting`. -/
def get_queue_position (queues : List (Str × Location)) (location_id queue_id : Str) :
    Option PositionInfo :=
  match get_location queues location_id with
  | none => none
  | some loc =>
    match loc.current_queue.find?
        (fun e => e.id == queue_id && e.status == Status.waiting) with
    | none => none
    | some entry =>
      some { position := entry.position,
             total_in_queue := (waitingQ loc.current_queue).length,
             user_name := entry.user_name,
             joined_at := entry.joined_at,
             estimated_wait := estimate_wait_time entry.position }

/-- Result record of `get_queue_stats`. -/
structure Stats where
  location_name : Str
  waiting_count : Nat
  served_count : Nat
  total_served : Nat
  capacity : Nat
  estimated_wait : Nat
deriving DecidableEq, Repr

/-- `QueueSystem.get_queue_stats`: statistics for a location; an unknown
location id yields the all-zero record, not an error. -/
def get_queue_stats (queues : List (Str × Location)) (location_id : Str) : Stats :=
  match get_location queues location_id with
  | none =>
    { location_name := [], waiting_count := 0, served_count := 0,
      total_served := 0, capacity := 0, estimated_wait := 0 }
  | some loc =>
    let waiting_count := (waitingQ loc.current_queue).length
    let served_count :=
      (loc.current_queue.filter (fun e => e.status == Status.served)).length
    { location_name := loc.name, waiting_count := waiting_count,
      served_count := served_count, total_served := loc.served_count,
      capacity := loc.capacity,
      estimated_wait := estimate_wait_time waiting_count }

/-- `QueueSystem.get_location_from_queue_id`: split the entry id at `'-'`
(`queue_id.split('-')[0]`), then return the first known location id that
starts with that part. -/
def get_location_from_queue_id (queues : List (Str × Location)) (queue_id : Str) :
    Option Str :=
  (queues.find?
    (fun p => (queue_id.takeWhile (fun c => c != '-')).isPrefixOf p.1)).map Prod.fst

/-! ## Storage world and persisting wrappers -/

/-- One attempted write to a backend, with its success flag. -/
inductive WriteEvent where
  | dynamoPut (ok : Bool)
  | filePut (ok : Bool)
deriving DecidableEq, Repr

/-- Deployment-time storage configuration plus whether each backend's
writes currently succeed. -/
structure Storage where
  hasDynamo : Bool
  dynamoOk : Bool
  fileOk : Bool
deriving DecidableEq, Repr

instance {e a : Type} [DecidableEq e] [DecidableEq a] : DecidableEq (Except e a) :=
  fun x y =>
    match x, y with
    | Except.error v, Except.error w =>
      if h : v = w then isTrue (by rw [h])
      else isFalse (by intro hc; injection hc with h2; exact h h2)
    | Except.ok v, Except.ok w =>
      if h : v = w then isTrue (by rw [h])
      else isFalse (by intro hc; injection hc with h2; exact h h2)
    | Except.error _, Except.ok _ => isFalse (by intro hc; cases hc)
    | Except.ok _, Except.error _ => isFalse (by intro hc; cases hc)

/-- `self.dynamodb.put_location(location)`: one DynamoDB write attempt. -/
def dynamo_put (st : Storage) : List WriteEvent × Except Unit Unit :=
  ([WriteEvent.dynamoPut st.dynamoOk],
   if st.dynamoOk then Except.ok () else Except.error ())

/-- The per-location loop of `save_queues` in the DynamoDB branch: put each
location; on the first failure, write the whole collection to the local
file as backup and re-raise. -/
def save_loop (st : Storage) : List (Str × Location) → List WriteEvent × Except Unit Unit
  | [] => ([], Except.ok ())
  | _ :: rest =>
    if st.dynamoOk then
      let r := save_loop st rest
      (WriteEvent.dynamoPut true :: r.1, r.2)
    else
      ([WriteEvent.dynamoPut false, WriteEvent.filePut st.fileOk], Except.error ())

/-- `QueueSystem.save_queues`: DynamoDB loop with local-file backup on
failure when DynamoDB is configured, otherwise a single local-file write;
any failure is re-raised (`Except.error`). -/
def save_queues (st : Storage) (queues : List (Str × Location)) :
    List WriteEvent × Except Unit Unit :=
  if st.hasDynamo then
    save_loop st queues
  else
    ([WriteEvent.filePut st.fileOk],
     if st.fileOk then Except.ok () else Except.error ())

/-- `self.queues[location_id] = location` for a key already present. -/
def set_location (queues : List (Str × Location)) (location_id : Str) (loc : Location) :
    List (Str × Location) :=
  queues.map (fun p => if p.1 == location_id then (p.1, loc) else p)

/-- `QueueSystem.join_queue` with its persistence step: looks the location
up, appends the entry in the cached record, then persists — directly via
`put_location` when DynamoDB is configured, else via `save_queues`.  The
surrounding `try/except` catches every exception and returns `None`, so the
outcome is always `Except.ok`; a storage failure yields `Except.ok none`
with the cache already mutated. -/
def join_queue_io (st : Storage) (queues : List (Str × Location))
    (location_id user_name phone notes : Str) (receipt_path : Option Str)
    (unique_id : Str) (now : Nat) :
    List WriteEvent × Except Unit (Option Str) × List (Str × Location) :=
  match get_location queues location_id with
  | none => ([], Except.ok none, queues)
  | some loc =>
    let r := join_queue loc user_name phone notes receipt_path unique_id now
    let queues2 := set_location queues location_id r.2
    let saved := if st.hasDynamo then dynamo_put st else save_queues st queues2
    match saved.2 with
    | Except.ok _ => (saved.1, Except.ok (some r.1), queues2)
    | Except.error _ => (saved.1, Except.ok none, queues2)

/-- `QueueSystem.leave_queue` with its persistence step; the `try/except`
catches storage failures and returns `False`. -/
def leave_queue_io (st : Storage) (queues : List (Str × Location))
    (location_id queue_id : Str) (now : Nat) :
    List WriteEvent × Except Unit Bool × List (Str × Location) :=
  match get_location queues location_id with
  | none => ([], Except.ok false, queues)
  | some loc =>
    let r := leave_queue loc queue_id now
    if r.1 then
      let queues2 := set_location queues location_id r.2
      let saved := if st.hasDynamo then dynamo_put st else save_queues st queues2
      match saved.2 with
      | Except.ok _ => (saved.1, Except.ok true, queues2)
      | Except.error _ => (saved.1, Except.ok false, queues2)
    else ([], Except.ok false, queues)

/-- `QueueSystem.serve_next` with its persistence step; the `try/except`
catches storage failures and returns `None`. -/
def serve_next_io (st : Storage) (queues : List (Str × Location))
    (location_id : Str) (now : Nat) :
    List WriteEvent × Except Unit (Option Entry) × List (Str × Location) :=
  match get_location queues location_id with
  | none => ([], Except.ok none, queues)
  | some loc =>
    let r := serve_next loc now
    match r.1 with
    | none => ([], Except.ok none, queues)
    | some e =>
      let queues2 := set_location queues location_id r.2
      let saved := if st.hasDynamo then dynamo_put st else save_queues st queues2
      match saved.2 with
      | Except.ok _ => (saved.1, Except.ok (some e), queues2)
      | Except.error _ => (saved.1, Except.ok none, queues2)

/-- `QueueSystem.create_location` with its persistence step: DynamoDB put
happens before the cache update; with a local file, the cache is updated
first and then `save_queues` runs.  Its `try/except` re-raises
(`raise`), so a storage failure surfaces as `Except.error`. -/
def create_location_io (st : Storage) (queues : List (Str × Location))
    (location_id name description : Str) (capacity : Nat) (now : Nat) :
    List WriteEvent × Except Unit Str × List (Str × Location) :=
  let loc := create_location location_id name description capacity now
  if st.hasDynamo then
    let saved := dynamo_put st
    match saved.2 with
    | Except.ok _ => (saved.1, Except.ok location_id, queues ++ [(location_id, loc)])
    | Except.error _ => (saved.1, Except.error (), queues)
  else
    let queues2 := queues ++ [(location_id, loc)]
    let saved := save_queues st queues2
    match saved.2 with
    | Except.ok _ => (saved.1, Except.ok location_id, queues2)
    | Except.error _ => (saved.1, Except.error (), queues2)

/-! ## The `/queue/join` route of `app.py` -/

/-- Outcome of the join route: `missing_fields` is the flash-and-redirect
for `if not all([location_id, user_name])`, `failed` the
"Failed to join queue" branch. -/
inductive JoinRouteResult where
  | missing_fields
  | failed
  | success (queue_id : Str)
deriving DecidableEq, Repr

/-- The `join_queue` route: validates that `location_id` and `user_name`
are non-empty (Python truthiness of `all([location_id, user_name])`)
before calling `queue_system.join_queue`. -/
def join_route (st : Storage) (queues : List (Str × Location))
    (location_id user_name phone notes : Str) (receipt_path : Option Str)
    (unique_id : Str) (now : Nat) :
    List WriteEvent × JoinRouteResult × List (Str × Location) :=
  if location_id.isEmpty || user_name.isEmpty then
    ([], JoinRouteResult.missing_fields, queues)
  else
    let r := join_queue_io st queues location_id user_name phone notes receipt_path
      unique_id now
    match r.2.1 with
    | Except.ok (some queue_id) => (r.1, JoinRouteResult.success queue_id, r.2.2)
    | _ => (r.1, JoinRouteResult.failed, r.2.2)

/-! ## Operation sequences over one location (for reachability claims) -/

/-- One queue operation on a single location, with its oracle inputs. -/
inductive Op where
  | join (user_name phone notes : Str) (receipt_path : Option Str)
      (unique_id : Str) (now : Nat)
  | leave (queue_id : Str) (now : Nat)
  | serve (now : Nat)
deriving DecidableEq, Repr

/-- Apply one operation to a location record (in-memory effect). -/
def applyOp (loc : Location) : Op → Location
  | Op.join u p n r uid now => (join_queue loc u p n r uid now).2
  | Op.leave qid now => (leave_queue loc qid now).2
  | Op.serve now => (serve_next loc now).2

/-- Run a sequence of operations left to right. -/
def runOps (loc : Location) (ops : List Op) : Location :=
  ops.foldl applyOp loc

/-- `true` iff the operation is a `serve_next`. -/
def Op.isServe : Op → Bool
  | Op.serve _ => true
  | _ => false

/-- Arguments of one `join_queue` call (for claims about join sequences). -/
structure JoinArgs where
  user_name : Str
  phone : Str
  notes : Str
  receipt_path : Option Str
  unique_id : Str
  now : Nat
deriving DecidableEq, Repr

/-- The `Op` of one join call. -/
def joinOp (a : JoinArgs) : Op :=
  Op.join a.user_name a.phone a.notes a.receipt_path a.unique_id a.now

/-- The entry that `join_queue` appends for arguments `a` when it assigns
position `position`. -/
def mkJoinEntry (location_id : Str) (a : JoinArgs) (position : Nat) : Entry :=
  { id := location_id.take 8 ++ ('-' :: a.unique_id.take 8),
    user_name := a.user_name, phone := a.phone, notes := a.notes,
    receipt_path := a.receipt_path, position := position, joined_at := a.now,
    status := Status.waiting }

/-- Queue built by a sequence of joins on top of `base` existing waiting
entries: the k-th join gets position `base + k + 1`. -/
def expectedEntries (location_id : Str) (base : Nat) : List JoinArgs → List Entry
  | [] => []
  | a :: rest =>
    mkJoinEntry location_id a (base + 1) :: expectedEntries location_id (base + 1) rest

/-! ## Concrete data used by per-claim witnesses and counterexamples -/

def locC1 : Location := create_location "loc00001".toList "Cafe".toList [] 0 0

def opsC1 : List Op :=
  [Op.join "alice".toList [] [] none "aaaaaaaa".toList 1,
   Op.join "bob".toList [] [] none "bbbbbbbb".toList 2,
   Op.serve 3]

def jsC4 : List JoinArgs :=
  [{ user_name := "alice".toList, phone := [], notes := [],
     receipt_path := none, unique_id := "aaaaaaaa".toList, now := 1 },
   { user_name := "bob".toList, phone := [], notes := [],
     receipt_path := none, unique_id := "bbbbbbbb".toList, now := 2 }]

def entryC3a : Entry :=
  { id := "y-aaaa".toList, user_name := "ann".toList, phone := [], notes := [],
    receipt_path := none, position := 2, joined_at := 0, status := Status.waiting }

def entryC3b : Entry :=
  { id := "y-bbbb".toList, user_name := "ben".toList, phone := [], notes := [],
    receipt_path := none, position := 1, joined_at := 0, status := Status.waiting }

def locC3 : Location :=
  { location_id := "y".toList, name := "M".toList, description := [], capacity := 0,
    current_queue := [entryC3a, entryC3b], served_count := 4, created_at := 0,
    updated_at := 0 }

def entryC8a : Entry :=
  { id := "z-aaaa".toList, user_name := "ola".toList, phone := [], notes := [],
    receipt_path := none, position := 1, joined_at := 0, status := Status.waiting }

def entryC8b : Entry :=
  { id := "z-bbbb".toList, user_name := "ben".toList, phone := [], notes := [],
    receipt_path := none, position := 2, joined_at := 0, status := Status.waiting }

def locC8 : Location :=
  { location_id := "z".toList, name := "N".toList, description := [], capacity := 0,
    current_queue := [entryC8a, entryC8b], served_count := 0, created_at := 0,
    updated_at := 0 }

def locC6 : Location := create_location "w0000001".toList "W".toList [] 0 0

def stC6 : Storage := { hasDynamo := true, dynamoOk := false, fileOk := true }

def entryC7 : Entry :=
  { id := "x-aaaa".toList, user_name := "alice".toList, phone := [], notes := [],
    receipt_path := none, position := 1, joined_at := 0, status := Status.waiting }

def locC7 : Location :=
  { location_id := "x".toList, name := "L".toList, description := [], capacity := 0,
    current_queue := [entryC7], served_count := 0, created_at := 0, updated_at := 0 }

/-! ## Lemmas: the rank function -/

theorem idxRank_lt_length {i : Nat} {l : List Nat} (h : i ∈ l) : idxRank l i < l.length := by
  induction l with
  | nil => cases h
  | cons j rest ih =>
    by_cases hij : i = j
    · simp [idxRank, hij]
    · have h2 : i ∈ rest := by
        rcases List.mem_cons.mp h with h3 | h3
        · exact absurd h3 hij
        · exact h3
      have := ih h2
      simp only [idxRank, if_neg hij, List.length_cons]
      omega

theorem getElem?_idxRank {i : Nat} {l : List Nat} (h : i ∈ l) : l[idxRank l i]? = some i := by
  induction l with
  | nil => cases h
  | cons j rest ih =>
    by_cases hij : i = j
    · simp [idxRank, hij]
    · have h2 : i ∈ rest := by
        rcases List.mem_cons.mp h with h3 | h3
        · exact absurd h3 hij
        · exact h3
      simp [idxRank, if_neg hij, ih h2]

theorem idxRank_getElem? {l : List Nat} (hnd : l.Nodup) {m i : Nat} (h : l[m]? = some i) :
    idxRank l i = m := by
  induction l generalizing m with
  | nil => simp at h
  | cons j rest ih =>
    rcases m with _ | m
    · simp at h
      simp [idxRank, h]
    · simp only [List.getElem?_cons_succ] at h
      have hnd2 := (List.nodup_cons.mp hnd).2
      have hji : ¬ i = j := by
        intro he
        subst he
        exact (List.nodup_cons.mp hnd).1 (List.getElem?_mem h)
      simp [idxRank, if_neg hji, ih hnd2 h]

theorem map_idxRank {l : List Nat} (hnd : l.Nodup) : l.map (idxRank l) = List.range l.length := by
  apply List.ext_getElem (by simp)
  intro m h1 h2
  simp only [List.getElem_map, List.getElem_range]
  exact idxRank_getElem? hnd (List.getElem?_eq_getElem (by simpa using h1))

/-! ## Lemmas: waiting pairs and the sorted index list -/

theorem waitPairs_map_snd (q : List Entry) : (waitPairs q).map Prod.snd = waitingQ q := by
  unfold waitPairs waitingQ
  conv_rhs => rw [← List.enum_map_snd q]
  rw [List.filter_map]
  rfl

theorem map_fst_waitPairs_nodup (q : List Entry) : ((waitPairs q).map Prod.fst).Nodup := by
  have hsub := List.Sublist.map Prod.fst (List.filter_sublist
    (p := fun p : Nat × Entry => p.2.status == Status.waiting) q.enum)
  rw [List.enum_map_fst] at hsub
  exact hsub.nodup (List.nodup_range _)

theorem sortedWaitIdx_perm (q : List Entry) :
    List.Perm (sortedWaitIdx q) ((waitPairs q).map Prod.fst) :=
  (List.perm_insertionSort posLeR (waitPairs q)).map Prod.fst

theorem sortedWaitIdx_nodup (q : List Entry) : (sortedWaitIdx q).Nodup :=
  ((sortedWaitIdx_perm q).nodup_iff).mpr (map_fst_waitPairs_nodup q)

theorem waitPairs_length (q : List Entry) : (waitPairs q).length = (waitingQ q).length := by
  rw [← waitPairs_map_snd, List.length_map]

theorem sortedWaitIdx_length (q : List Entry) :
    (sortedWaitIdx q).length = (waitingQ q).length := by
  have h := (sortedWaitIdx_perm q).length_eq
  rw [List.length_map] at h
  rw [h, waitPairs_length]

/-! ## Lemmas: re-normalisation establishes the position invariant -/

theorem renumberEntry_status (idx : List Nat) (p : Nat × Entry) :
    (renumberEntry idx p).status = p.2.status := by
  unfold renumberEntry
  split <;> rfl

theorem renumberEntry_id (idx : List Nat) (p : Nat × Entry) :
    (renumberEntry idx p).id = p.2.id := by
  unfold renumberEntry
  split <;> rfl

theorem renumber_length (q : List Entry) : (renumber q).length = q.length := by
  unfold renumber
  simp [List.enum_length]

theorem waitingQ_renumber (q : List Entry) :
    waitingQ (renumber q) = (waitPairs q).map (renumberEntry (sortedWaitIdx q)) := by
  unfold renumber waitingQ waitPairs
  rw [List.filter_map]
  congr 1
  apply List.filter_congr
  intro p _
  show ((renumberEntry (sortedWaitIdx q) p).status == Status.waiting)
    = (p.2.status == Status.waiting)
  rw [renumberEntry_status]

theorem waitingPositionsQ_renumber (q : List Entry) :
    waitingPositionsQ (renumber q)
      = ((waitPairs q).map Prod.fst).map (fun i => idxRank (sortedWaitIdx q) i + 1) := by
  unfold waitingPositionsQ
  rw [waitingQ_renumber, List.map_map, List.map_map]
  apply List.map_congr_left
  intro p hp
  have hw : (p.2.status == Status.waiting) = true := (List.mem_filter.mp hp).2
  show (renumberEntry (sortedWaitIdx q) p).position = idxRank (sortedWaitIdx q) p.1 + 1
  unfold renumberEntry
  rw [if_pos hw]

theorem waitingQ_renumber_length (q : List Entry) :
    (waitingQ (renumber q)).length = (waitingQ q).length := by
  rw [waitingQ_renumber, List.length_map, waitPairs_length]

theorem waitingPositionsQ_renumber_perm (q : List Entry) :
    List.Perm (waitingPositionsQ (renumber q)) (List.range' 1 (waitingQ q).length) := by
  rw [waitingPositionsQ_renumber]
  have h1 : List.Perm ((waitPairs q).map Prod.fst) (sortedWaitIdx q) :=
    (sortedWaitIdx_perm q).symm
  apply (h1.map (fun i => idxRank (sortedWaitIdx q) i + 1)).trans
  have h3 : (sortedWaitIdx q).map (fun i => idxRank (sortedWaitIdx q) i + 1)
      = (List.range (sortedWaitIdx q).length).map (fun m => m + 1) := by
    rw [← map_idxRank (sortedWaitIdx_nodup q), List.map_map]
    rfl
  rw [h3, sortedWaitIdx_length]
  have h4 : (List.range (waitingQ q).length).map (fun m => m + 1)
      = List.range' 1 (waitingQ q).length := by
    rw [List.range'_eq_map_range]
    apply List.map_congr_left
    intro a _
    omega
  rw [h4]

theorem positionsOkQ_renumber (q : List Entry) : positionsOkQ (renumber q) := by
  unfold positionsOkQ
  rw [waitingQ_renumber_length]
  exact waitingPositionsQ_renumber_perm q

/-! ## Lemmas: preservation of the position invariant by join and leave -/

theorem positionsOkQ_nil : positionsOkQ [] := by decide

theorem waitingQ_append_waiting (q : List Entry) (e : Entry)
    (he : e.status = Status.waiting) : waitingQ (q ++ [e]) = waitingQ q ++ [e] := by
  unfold waitingQ
  rw [List.filter_append]
  simp [he]

theorem positionsOkQ_join (loc : Location) (user_name phone notes : Str)
    (receipt_path : Option Str) (unique_id : Str) (now : Nat)
    (h : positionsOkQ loc.current_queue) :
    positionsOkQ ((join_queue loc user_name phone notes receipt_path unique_id now).2).current_queue := by
  unfold join_queue positionsOkQ waitingPositionsQ
  simp only
  rw [waitingQ_append_waiting _ _ rfl]
  rw [List.map_append, List.length_append]
  simp only [List.map_cons, List.map_nil, List.length_cons, List.length_nil]
  rw [List.range'_concat]
  apply List.Perm.append h
  have h2 : 1 + 1 * (waitingQ loc.current_queue).length
      = (waitingQ loc.current_queue).length + 1 := by omega
  rw [h2]

theorem positionsOkQ_leave (loc : Location) (queue_id : Str) (now : Nat)
    (h : positionsOkQ loc.current_queue) :
    positionsOkQ ((leave_queue loc queue_id now).2).current_queue := by
  unfold leave_queue
  cases hf : loc.current_queue.enum.find?
      (fun p => p.2.id == queue_id && p.2.status == Status.waiting) with
  | none => simpa using h
  | some found => simpa using positionsOkQ_renumber _

theorem runOps_positionsOk (ops : List Op) (loc : Location)
    (hops : ∀ op ∈ ops, op.isServe = false) (h : positionsOkQ loc.current_queue) :
    positionsOkQ (runOps loc ops).current_queue := by
  induction ops generalizing loc with
  | nil => exact h
  | cons op rest ih =>
    have hrest : ∀ o ∈ rest, o.isServe = false :=
      fun o ho => hops o (List.mem_cons_of_mem _ ho)
    show positionsOkQ (runOps (applyOp loc op) rest).current_queue
    cases op with
    | join u p n r uid now => exact ih _ hrest (positionsOkQ_join loc u p n r uid now h)
    | leave qid now => exact ih _ hrest (positionsOkQ_leave loc qid now h)
    | serve now =>
      have := hops (Op.serve now) (List.mem_cons_self _ _)
      simp [Op.isServe] at this

/-! ## Claim C1 -/

/-- C1 (counterexample): the claimed invariant — waiting positions form a
contiguous `1..N` in every state reachable by join/leave/serve_next — fails
on the code: from a fresh location, after two joins and one `serve_next`,
the single waiting entry still has position 2, because `serve_next` does
not re-normalise positions. -/
theorem positions_invariant_counterexample :
    ¬ positionsOkQ (runOps locC1 opsC1).current_queue := by decide

/-- C1 (amended): for every state reachable from a freshly created location
by a sequence of `join_queue` and `leave_queue` operations (no
`serve_next`), the positions of the waiting entries form a contiguous,
duplicate-free sequence `1..N`. -/
theorem positions_invariant_join_leave (location_id name description : Str)
    (capacity now : Nat) (ops : List Op) (hops : ∀ op ∈ ops, op.isServe = false) :
    positionsOkQ
      (runOps (create_location location_id name description capacity now) ops).current_queue :=
  runOps_positionsOk ops _ hops positionsOkQ_nil

/-- Witness for the amended C1 at a concrete join/leave sequence. -/
theorem positions_invariant_join_leave_witness :
    (∀ op ∈ [Op.join "alice".toList [] [] none "aaaaaaaa".toList 1,
             Op.join "bob".toList [] [] none "bbbbbbbb".toList 2,
             Op.leave "loc00001-aaaaaaaa".toList 3], op.isServe = false) ∧
    positionsOkQ
      (runOps (create_location "loc00001".toList "Cafe".toList [] 0 0)
        [Op.join "alice".toList [] [] none "aaaaaaaa".toList 1,
         Op.join "bob".toList [] [] none "bbbbbbbb".toList 2,
         Op.leave "loc00001-aaaaaaaa".toList 3]).current_queue :=
  ⟨by decide,
   positions_invariant_join_leave "loc00001".toList "Cafe".toList [] 0 0 _ (by decide)⟩

/-! ## Claim C10 -/

/-- C10: `get_queue_stats` on a location id that does not exist returns the
well-formed all-zero statistics record with an empty location name — it
does not signal NotFound. -/
theorem get_queue_stats_unknown_location (queues : List (Str × Location))
    (location_id : Str) (h : get_location queues location_id = none) :
    get_queue_stats queues location_id =
      { location_name := [], waiting_count := 0, served_count := 0,
        total_served := 0, capacity := 0, estimated_wait := 0 } := by
  unfold get_queue_stats
  rw [h]

/-- Witness for C10 on a concrete unknown location id. -/
theorem get_queue_stats_unknown_location_witness :
    get_location [("x".toList, locC7)] "nope".toList = none ∧
    get_queue_stats [("x".toList, locC7)] "nope".toList =
      { location_name := [], waiting_count := 0, served_count := 0,
        total_served := 0, capacity := 0, estimated_wait := 0 } :=
  ⟨by decide, get_queue_stats_unknown_location _ _ (by decide)⟩

/-! ## Claim C5 -/

/-- C5: a join request whose `user_name` (display name) is empty is
rejected by the route validation (`if not all([location_id, user_name])`)
before any storage access: no write events happen, the result is the
missing-fields validation error, and the queue state is unchanged (no
entry is created). -/
theorem join_route_empty_name (st : Storage) (queues : List (Str × Location))
    (location_id phone notes : Str) (receipt_path : Option Str) (unique_id : Str)
    (now : Nat) (user_name : Str) (h : user_name = []) :
    join_route st queues location_id user_name phone notes receipt_path unique_id now
      = ([], JoinRouteResult.missing_fields, queues) := by
  subst h
  unfold join_route
  simp

/-- Witness for C5 at a concrete request with empty display name. -/
theorem join_route_empty_name_witness :
    join_route { hasDynamo := false, dynamoOk := true, fileOk := true }
      [("x".toList, locC7)] "x".toList [] [] [] none "aaaaaaaa".toList 7
      = ([], JoinRouteResult.missing_fields, [("x".toList, locC7)]) :=
  join_route_empty_name _ _ _ [] [] none _ 7 [] rfl

/-! ## Claim C7 -/

/-- C7: `get_queue_position` returns none whenever no entry with the given
id is currently `waiting` (covering both a missing entry and one whose
status is `served` or `left`), and when a waiting entry is found it returns
that entry's position, the total count of waiting entries, and an estimated
wait of exactly position × 5 minutes. -/
theorem get_queue_position_spec (queues : List (Str × Location))
    (location_id queue_id : Str) (loc : Location)
    (hloc : get_location queues location_id = some loc) :
    ((∀ e ∈ loc.current_queue, e.id = queue_id → e.status ≠ Status.waiting) →
      get_queue_position queues location_id queue_id = none) ∧
    (∀ e, loc.current_queue.find?
        (fun x => x.id == queue_id && x.status == Status.waiting) = some e →
      get_queue_position queues location_id queue_id
        = some { position := e.position,
                 total_in_queue := (waitingQ loc.current_queue).length,
                 user_name := e.user_name, joined_at := e.joined_at,
                 estimated_wait := e.position * 5 }) := by
  constructor
  · intro hnone
    have hfind : loc.current_queue.find?
        (fun x => x.id == queue_id && x.status == Status.waiting) = none := by
      rw [List.find?_eq_none]
      intro x hx
      simp only [Bool.and_eq_true, beq_iff_eq, not_and]
      intro h1 h2
      exact hnone x hx h1 h2
    simp only [get_queue_position, hloc, hfind]
  · intro e he
    simp only [get_queue_position, hloc, he, estimate_wait_time]

/-- Witness for C7 at a concrete location with one waiting entry. -/
theorem get_queue_position_spec_witness :
    get_location [("x".toList, locC7)] "x".toList = some locC7 ∧
    (((∀ e ∈ locC7.current_queue, e.id = "x-aaaa".toList → e.status ≠ Status.waiting) →
      get_queue_position [("x".toList, locC7)] "x".toList "x-aaaa".toList = none) ∧
    (∀ e, locC7.current_queue.find?
        (fun x => x.id == "x-aaaa".toList && x.status == Status.waiting) = some e →
      get_queue_position [("x".toList, locC7)] "x".toList "x-aaaa".toList
        = some { position := e.position,
                 total_in_queue := (waitingQ locC7.current_queue).length,
                 user_name := e.user_name, joined_at := e.joined_at,
                 estimated_wait := e.position * 5 })) :=
  ⟨by decide, get_queue_position_spec _ _ _ _ (by decide)⟩

/-! ## Claim C4 -/

theorem expectedEntries_length (location_id : Str) (js : List JoinArgs) :
    ∀ base, (expectedEntries location_id base js).length = js.length := by
  induction js with
  | nil => intro base; rfl
  | cons a rest ih =>
    intro base
    simp only [expectedEntries, List.length_cons, ih]

theorem expectedEntries_getElem? (location_id : Str) (js : List JoinArgs) :
    ∀ base k a, js[k]? = some a →
      (expectedEntries location_id base js)[k]?
        = some (mkJoinEntry location_id a (base + k + 1)) := by
  induction js with
  | nil => intro base k a h; simp at h
  | cons b rest ih =>
    intro base k a h
    cases k with
    | zero =>
      simp only [List.getElem?_cons_zero, Option.some.injEq] at h
      subst h
      simp [expectedEntries]
    | succ k =>
      simp only [List.getElem?_cons_succ] at h
      simp only [expectedEntries, List.getElem?_cons_succ]
      rw [ih (base + 1) k a h]
      have harith : base + 1 + k + 1 = base + (k + 1) + 1 := by omega
      rw [harith]

theorem runOps_joins (js : List JoinArgs) (loc : Location)
    (hw : ∀ e ∈ loc.current_queue, e.status = Status.waiting) :
    (runOps loc (js.map joinOp)).current_queue
      = loc.current_queue
          ++ expectedEntries loc.location_id loc.current_queue.length js ∧
    (runOps loc (js.map joinOp)).location_id = loc.location_id := by
  induction js generalizing loc with
  | nil => simp [runOps, expectedEntries]
  | cons a rest ih =>
    have hwq : waitingQ loc.current_queue = loc.current_queue :=
      List.filter_eq_self.mpr (fun e he => by rw [hw e he]; rfl)
    have hstep : applyOp loc (joinOp a)
        = (join_queue loc a.user_name a.phone a.notes a.receipt_path a.unique_id a.now).2 := rfl
    have hq2 : (applyOp loc (joinOp a)).current_queue
        = loc.current_queue
            ++ [mkJoinEntry loc.location_id a (loc.current_queue.length + 1)] := by
      rw [hstep]
      simp only [join_queue, mkJoinEntry, hwq]
    have hl2 : (applyOp loc (joinOp a)).location_id = loc.location_id := by
      rw [hstep]
      rfl
    have hw2 : ∀ e ∈ (applyOp loc (joinOp a)).current_queue, e.status = Status.waiting := by
      rw [hq2]
      intro e he
      rcases List.mem_append.mp he with h | h
      · exact hw e h
      · rw [List.mem_singleton.mp h]
        rfl
    have hrun : runOps loc ((a :: rest).map joinOp)
        = runOps (applyOp loc (joinOp a)) (rest.map joinOp) := rfl
    obtain ⟨ihq, ihl⟩ := ih (applyOp loc (joinOp a)) hw2
    rw [hrun, ihq, ihl, hl2, hq2]
    constructor
    · rw [List.append_assoc]
      congr 1
      have hlen : (loc.current_queue
          ++ [mkJoinEntry loc.location_id a (loc.current_queue.length + 1)]).length
            = loc.current_queue.length + 1 := by simp
      rw [hlen]
      rfl
    · rfl

/-- C4: for every sequence of N joins applied to a location whose queue is
empty (no intervening leave or serve_next), the resulting queue holds
exactly N entries, all `waiting`, and the k-th joiner's entry has position
k (1-based) and that joiner's name. -/
theorem join_sequence_positions (js : List JoinArgs) (loc : Location)
    (hempty : loc.current_queue = []) :
    (runOps loc (js.map joinOp)).current_queue.length = js.length ∧
    (∀ k a, js[k]? = some a →
      ∃ e, (runOps loc (js.map joinOp)).current_queue[k]? = some e ∧
        e.position = k + 1 ∧ e.status = Status.waiting ∧ e.user_name = a.user_name) := by
  have hw : ∀ e ∈ loc.current_queue, e.status = Status.waiting := by
    rw [hempty]
    intro e he
    cases he
  obtain ⟨hq, -⟩ := runOps_joins js loc hw
  rw [hempty] at hq
  simp only [List.nil_append, List.length_nil] at hq
  constructor
  · rw [hq, expectedEntries_length]
  · intro k a h
    refine ⟨mkJoinEntry loc.location_id a (0 + k + 1), ?_, by simp [mkJoinEntry], rfl, rfl⟩
    rw [hq]
    exact expectedEntries_getElem? loc.location_id js 0 k a h

/-- Witness for C4: two concrete joins on a fresh location. -/
theorem join_sequence_positions_witness :
    locC1.current_queue = [] ∧
    ((runOps locC1 (jsC4.map joinOp)).current_queue.length = jsC4.length ∧
    (∀ k a, jsC4[k]? = some a →
      ∃ e, (runOps locC1 (jsC4.map joinOp)).current_queue[k]? = some e ∧
        e.position = k + 1 ∧ e.status = Status.waiting ∧ e.user_name = a.user_name)) :=
  ⟨rfl, join_sequence_positions jsC4 locC1 rfl⟩

/-! ## Claim C3 -/

theorem getElem?_enum_map (f : Nat × Entry → Entry) (q : List Entry) (j : Nat) :
    (q.enum.map f)[j]? = q[j]?.map (fun e => f (j, e)) := by
  rw [List.getElem?_map, List.getElem?_enum]
  cases q[j]? <;> rfl

/-- C3: on a location with no waiting entries, `serve_next` returns the
none signal and leaves the location record entirely unchanged; with at
least one waiting entry it picks a waiting entry whose position is minimal
among the waiting entries, returns it with status `served` and `served_at`
stamped, writes it back into the same queue slot leaving every other slot
unchanged, and increments `served_count` by one. -/
theorem serve_next_spec (loc : Location) (now : Nat) :
    ((waitingQ loc.current_queue).length = 0 → serve_next loc now = (none, loc)) ∧
    (0 < (waitingQ loc.current_queue).length →
      ∃ (i : Nat) (e0 : Entry),
        loc.current_queue[i]? = some e0 ∧ e0.status = Status.waiting ∧
        (∀ e ∈ waitingQ loc.current_queue, e0.position ≤ e.position) ∧
        (serve_next loc now).1
          = some { e0 with status := Status.served, served_at := some now } ∧
        (serve_next loc now).2.served_count = loc.served_count + 1 ∧
        (serve_next loc now).2.current_queue[i]?
          = some { e0 with status := Status.served, served_at := some now } ∧
        (∀ j, j ≠ i → (serve_next loc now).2.current_queue[j]? = loc.current_queue[j]?)) := by
  constructor
  · intro h0
    have hwq : waitingQ loc.current_queue = [] := List.length_eq_zero.mp h0
    have hwp : waitPairs loc.current_queue = [] := by
      have h1 := waitPairs_map_snd loc.current_queue
      rw [hwq] at h1
      exact List.map_eq_nil_iff.mp h1
    have hs : (waitPairs loc.current_queue).insertionSort posLeR = [] := by
      rw [hwp]
      rfl
    simp only [serve_next, hs]
  · intro hpos
    cases hs : (waitPairs loc.current_queue).insertionSort posLeR with
    | nil =>
      exfalso
      have hperm := List.perm_insertionSort posLeR (waitPairs loc.current_queue)
      rw [hs] at hperm
      have hnil : waitPairs loc.current_queue = [] := hperm.symm.eq_nil
      have hlen := waitPairs_length loc.current_queue
      rw [hnil] at hlen
      simp at hlen
      omega
    | cons found rest =>
      have hperm := List.perm_insertionSort posLeR (waitPairs loc.current_queue)
      rw [hs] at hperm
      have hfound_mem : found ∈ waitPairs loc.current_queue :=
        hperm.mem_iff.mp (List.mem_cons_self _ _)
      have hq : loc.current_queue[found.1]? = some found.2 :=
        List.mem_enum_iff_getElem?.mp (List.mem_filter.mp hfound_mem).1
    
      have hw : found.2.status = Status.waiting := by
        have h2 := (List.mem_filter.mp hfound_mem).2
        simpa using h2
      refine ⟨found.1, found.2, hq, hw, ?_, ?_, ?_, ?_, ?_⟩
      · intro e he
        have he2 : e ∈ (waitPairs loc.current_queue).map Prod.snd := by
          rw [waitPairs_map_snd]
          exact he
        obtain ⟨p, hp, hpe⟩ := List.mem_map.mp he2
        have hps : p ∈ found :: rest := hperm.symm.mem_iff.mp hp
        rcases List.mem_cons.mp hps with h | h
        · rw [← hpe, h]
        · have hsorted := List.sorted_insertionSort posLeR (waitPairs loc.current_queue)
          rw [hs] at hsorted
          have h3 := List.rel_of_sorted_cons hsorted p h
          rw [← hpe]
          exact h3
      · simp only [serve_next, hs]
      · simp only [serve_next, hs]
      · simp only [serve_next, hs]
        rw [getElem?_enum_map, hq]
        simp
      · intro j hj
        simp only [serve_next, hs]
        rw [getElem?_enum_map]
        cases hqj : loc.current_queue[j]? with
        | none => rfl
        | some e =>
          have hne : (j == found.1) = false := by
            simp only [beq_eq_false_iff_ne, ne_eq]
            exact hj
          simp [hne]

/-- Witness for C3 at a concrete location with two waiting entries. -/
theorem serve_next_spec_witness :
    ((waitingQ locC3.current_queue).length = 0 → serve_next locC3 5 = (none, locC3)) ∧
    (0 < (waitingQ locC3.current_queue).length →
      ∃ (i : Nat) (e0 : Entry),
        locC3.current_queue[i]? = some e0 ∧ e0.status = Status.waiting ∧
        (∀ e ∈ waitingQ locC3.current_queue, e0.position ≤ e.position) ∧
        (serve_next locC3 5).1
          = some { e0 with status := Status.served, served_at := some 5 } ∧
        (serve_next locC3 5).2.served_count = locC3.served_count + 1 ∧
        (serve_next locC3 5).2.current_queue[i]?
          = some { e0 with status := Status.served, served_at := some 5 } ∧
        (∀ j, j ≠ i → (serve_next locC3 5).2.current_queue[j]? = locC3.current_queue[j]?)) :=
  serve_next_spec locC3 5

/-! ## Claim C8 -/

theorem markLeft_id (i now : Nat) (p : Nat × Entry) : (markLeft i now p).id = p.2.id := by
  unfold markLeft
  split <;> rfl

theorem markLeft_position (i now : Nat) (p : Nat × Entry) :
    (markLeft i now p).position = p.2.position := by
  unfold markLeft
  split <;> rfl

theorem markLeft_status (i now : Nat) (p : Nat × Entry) :
    (markLeft i now p).status = if p.1 == i then Status.left else p.2.status := by
  unfold markLeft
  by_cases h : (p.1 == i) = true
  · rw [if_pos h, if_pos h]
  · rw [if_neg h, if_neg h]

theorem leave_marked_getElem? (q : List Entry) (i now j : Nat) :
    (renumber (q.enum.map (markLeft i now)))[j]?
      = q[j]?.map (fun e =>
          renumberEntry (sortedWaitIdx (q.enum.map (markLeft i now)))
            (j, markLeft i now (j, e))) := by
  unfold renumber
  rw [getElem?_enum_map, getElem?_enum_map]
  cases q[j]? <;> rfl

theorem lt_length_of_getElem?_some {α : Type} {l : List α} {i : Nat} {a : α}
    (h : l[i]? = some a) : i < l.length := by
  by_contra hc
  rw [List.getElem?_eq_none (by omega)] at h
  cases h

/-- C8: after a successful `leave_queue`, a second `leave_queue` with the
same location and entry id returns `false` and leaves the location record
— in particular every waiting entry's position — unchanged.  (Entry ids in
the queue are assumed pairwise distinct, as join's unique-id generation
provides.) -/
theorem leave_queue_idempotent (loc : Location) (queue_id : Str) (now now2 : Nat)
    (hids : (loc.current_queue.map Entry.id).Nodup)
    (hsucc : (leave_queue loc queue_id now).1 = true) :
    leave_queue ((leave_queue loc queue_id now).2) queue_id now2
      = (false, (leave_queue loc queue_id now).2) := by
  cases hf : loc.current_queue.enum.find?
      (fun p => p.2.id == queue_id && p.2.status == Status.waiting) with
  | none =>
    simp only [leave_queue, hf] at hsucc
    exact Bool.noConfusion hsucc
  | some found =>
    have hloc2 : (leave_queue loc queue_id now).2
        = { loc with
            current_queue := renumber (loc.current_queue.enum.map (markLeft found.1 now)),
            updated_at := now } := by
      simp only [leave_queue, hf]
    have hfmem := List.mem_of_find?_eq_some hf
    have hfpred := List.find?_some hf
    have hqi : loc.current_queue[found.1]? = some found.2 :=
      List.mem_enum_iff_getElem?.mp hfmem
    have hid_found : found.2.id = queue_id := by
      simp only [Bool.and_eq_true, beq_iff_eq] at hfpred
      exact hfpred.1
    have hnone : (renumber (loc.current_queue.enum.map (markLeft found.1 now))).enum.find?
        (fun p => p.2.id == queue_id && p.2.status == Status.waiting) = none := by
      rw [List.find?_eq_none]
      intro p hp
      have hj := List.mem_enum_iff_getElem?.mp hp
      rw [leave_marked_getElem?] at hj
      simp only [Bool.and_eq_true, beq_iff_eq, not_and]
      intro hid hstatus
      cases hq : loc.current_queue[p.1]? with
      | none => rw [hq] at hj; cases hj
      | some ej =>
        rw [hq, Option.map_some'] at hj
        have hp2 : p.2 = renumberEntry (sortedWaitIdx
            (loc.current_queue.enum.map (markLeft found.1 now)))
            (p.1, markLeft found.1 now (p.1, ej)) := by
          injection hj with hj2
          exact hj2.symm
        have hpid : p.2.id = ej.id := by
          rw [hp2, renumberEntry_id, markLeft_id]
        have hpstatus : p.2.status = if p.1 == found.1 then Status.left else ej.status := by
          rw [hp2, renumberEntry_status]
          exact markLeft_status _ _ _
        by_cases hpi : (p.1 == found.1) = true
        · rw [hpstatus, if_pos hpi] at hstatus
          cases hstatus
        · rw [hpstatus, if_neg hpi] at hstatus
          have hej_id : ej.id = queue_id := by rw [← hpid, hid]
          have h1 : (loc.current_queue.map Entry.id)[p.1]? = some queue_id := by
            rw [List.getElem?_map, hq, Option.map_some', hej_id]
          have h2 : (loc.current_queue.map Entry.id)[found.1]? = some queue_id := by
            rw [List.getElem?_map, hqi, Option.map_some', hid_found]
          have hlt : p.1 < (loc.current_queue.map Entry.id).length :=
            lt_length_of_getElem?_some h1
          have : p.1 = found.1 := List.getElem?_inj hlt hids (h1.trans h2.symm)
          rw [this] at hpi
          simp at hpi
    rw [hloc2]
    simp only [leave_queue]
    rw [hnone]

/-- Witness for C8 at a concrete two-person queue. -/
theorem leave_queue_idempotent_witness :
    (locC8.current_queue.map Entry.id).Nodup ∧
    (leave_queue locC8 "z-aaaa".toList 3).1 = true ∧
    leave_queue ((leave_queue locC8 "z-aaaa".toList 3).2) "z-aaaa".toList 4
      = (false, (leave_queue locC8 "z-aaaa".toList 3).2) :=
  ⟨by decide, by decide, leave_queue_idempotent locC8 _ 3 4 (by decide) (by decide)⟩

/-! ## Claim C2 -/

theorem waitPairs_map_position (q : List Entry) :
    (waitPairs q).map (fun p => p.2.position) = waitingPositionsQ q := by
  unfold waitingPositionsQ
  rw [← waitPairs_map_snd, List.map_map]
  rfl

theorem positionsOkQ_nodup {q : List Entry} (h : positionsOkQ q) :
    (waitingPositionsQ q).Nodup :=
  h.nodup_iff.mpr (List.nodup_range' _ _)

theorem renumber_getElem? (q : List Entry) (j : Nat) :
    (renumber q)[j]? = q[j]?.map (fun e => renumberEntry (sortedWaitIdx q) (j, e)) := by
  unfold renumber
  rw [getElem?_enum_map]

theorem mem_waitPairs {q : List Entry} {j : Nat} {ej : Entry}
    (h : q[j]? = some ej) (hw : ej.status = Status.waiting) : (j, ej) ∈ waitPairs q := by
  unfold waitPairs
  refine List.mem_filter.mpr ⟨List.mem_enum_iff_getElem?.mpr h, by simp [hw]⟩

theorem renumber_order (q : List Entry) (hnd : (waitingPositionsQ q).Nodup)
    {j k : Nat} {ej ek fj fk : Entry}
    (hqj : q[j]? = some ej) (hqk : q[k]? = some ek)
    (hrj : (renumber q)[j]? = some fj) (hrk : (renumber q)[k]? = some fk)
    (hwj : fj.status = Status.waiting) (hwk : fk.status = Status.waiting) :
    (fj.position < fk.position ↔ ej.position < ek.position) := by
  rw [renumber_getElem?, hqj, Option.map_some'] at hrj
  rw [renumber_getElem?, hqk, Option.map_some'] at hrk
  injection hrj with hrj2
  injection hrk with hrk2
  rw [← hrj2, renumberEntry_status] at hwj
  rw [← hrk2, renumberEntry_status] at hwk
  have hwj2 : ej.status = Status.waiting := hwj
  have hwk2 : ek.status = Status.waiting := hwk
  have hfj : fj.position = idxRank (sortedWaitIdx q) j + 1 := by
    rw [← hrj2]
    unfold renumberEntry
    rw [if_pos (by simp [hwj2])]
  have hfk : fk.position = idxRank (sortedWaitIdx q) k + 1 := by
    rw [← hrk2]
    unfold renumberEntry
    rw [if_pos (by simp [hwk2])]
  have hperm : List.Perm ((waitPairs q).insertionSort posLeR) (waitPairs q) :=
    List.perm_insertionSort posLeR _
  have hjmem : (j, ej) ∈ waitPairs q := mem_waitPairs hqj hwj2
  have hkmem : (k, ek) ∈ waitPairs q := mem_waitPairs hqk hwk2
  have hjidx : j ∈ sortedWaitIdx q :=
    List.mem_map.mpr ⟨(j, ej), hperm.mem_iff.mpr hjmem, rfl⟩
  have hkidx : k ∈ sortedWaitIdx q :=
    List.mem_map.mpr ⟨(k, ek), hperm.mem_iff.mpr hkmem, rfl⟩
  have hmj : (sortedWaitIdx q)[idxRank (sortedWaitIdx q) j]? = some j :=
    getElem?_idxRank hjidx
  have hmk : (sortedWaitIdx q)[idxRank (sortedWaitIdx q) k]? = some k :=
    getElem?_idxRank hkidx
  have hmjlt : idxRank (sortedWaitIdx q) j
      < ((waitPairs q).insertionSort posLeR).length := by
    have h1 := idxRank_lt_length hjidx
    rw [sortedWaitIdx, List.length_map] at h1
    exact h1
  have hmklt : idxRank (sortedWaitIdx q) k
      < ((waitPairs q).insertionSort posLeR).length := by
    have h1 := idxRank_lt_length hkidx
    rw [sortedWaitIdx, List.length_map] at h1
    exact h1
  have hpair : ∀ (m : Nat) (x : Nat) (ex : Entry),
      (sortedWaitIdx q)[m]? = some x → q[x]? = some ex →
      ((waitPairs q).insertionSort posLeR)[m]? = some (x, ex) := by
    intro m x ex hx hqx
    cases hs0 : ((waitPairs q).insertionSort posLeR)[m]? with
    | none =>
      rw [sortedWaitIdx, List.getElem?_map, hs0] at hx
      cases hx
    | some pj =>
      rw [sortedWaitIdx, List.getElem?_map, hs0, Option.map_some'] at hx
      injection hx with hx2
      have hpmem : pj ∈ waitPairs q := hperm.mem_iff.mp (List.getElem?_mem hs0)
      have hq2 : q[pj.1]? = some pj.2 :=
        List.mem_enum_iff_getElem?.mp (List.mem_filter.mp hpmem).1
      rw [hx2] at hq2
      have hpe : pj.2 = ex := by
        have h3 := hq2.symm.trans hqx
        injection h3
      rw [← hx2, ← hpe]
  have hsj := hpair _ j ej hmj hqj
  have hsk := hpair _ k ek hmk hqk
  have hsorted : List.Pairwise posLeR ((waitPairs q).insertionSort posLeR) :=
    List.sorted_insertionSort posLeR _
  have hsnd : (((waitPairs q).insertionSort posLeR).map (fun p => p.2.position)).Nodup := by
    have h1 := hperm.map (fun p : Nat × Entry => p.2.position)
    rw [waitPairs_map_position] at h1
    exact h1.nodup_iff.mpr hnd
  have hmono : ∀ (m m' x : Nat) (ex : Entry) (x' : Nat) (ex' : Entry),
      ((waitPairs q).insertionSort posLeR)[m]? = some (x, ex) →
      ((waitPairs q).insertionSort posLeR)[m']? = some (x', ex') →
      m < m' → ex.position < ex'.position := by
    intro m m' x ex x' ex' hm hm' hlt
    clear hmj hmk hsj hsk
    have hmlt : m < ((waitPairs q).insertionSort posLeR).length :=
      lt_length_of_getElem?_some hm
    have hmlt' : m' < ((waitPairs q).insertionSort posLeR).length :=
      lt_length_of_getElem?_some hm'
    have hrel := List.pairwise_iff_getElem.mp hsorted m m' hmlt hmlt' hlt
    rw [List.getElem?_eq_getElem hmlt] at hm
    rw [List.getElem?_eq_getElem hmlt'] at hm'
    injection hm with hm2
    injection hm' with hm2'
    rw [hm2, hm2'] at hrel
    have hle : ex.position ≤ ex'.position := hrel
    have hne : ex.position ≠ ex'.position := by
      intro he
      have h1 : (((waitPairs q).insertionSort posLeR).map (fun p => p.2.position))[m]?
          = (((waitPairs q).insertionSort posLeR).map (fun p => p.2.position))[m']? := by
        rw [List.getElem?_map, List.getElem?_map,
          List.getElem?_eq_getElem hmlt, List.getElem?_eq_getElem hmlt',
          hm2, hm2']
        simp [he]
      have h2 := List.getElem?_inj (by simpa using hmlt) hsnd h1
      omega
    exact lt_of_le_of_ne hle hne
  rw [hfj, hfk]
  constructor
  · intro h
    exact hmono _ _ j ej k ek hsj hsk (by omega)
  · intro h
    rcases Nat.lt_trichotomy (idxRank (sortedWaitIdx q) j) (idxRank (sortedWaitIdx q) k)
      with hlt | heq | hgt
    · omega
    · exfalso
      rw [heq] at hmj
      have hjk : j = k := by
        have h3 := hmj.symm.trans hmk
        injection h3
      subst hjk
      have hee : ej = ek := by
        have h3 := hqj.symm.trans hqk
        injection h3
      rw [hee] at h
      omega
    · exfalso
      have := hmono _ _ k ek j ej hsk hsj hgt
      omega

theorem waitingQ_marked (q : List Entry) (i now : Nat) :
    waitingQ (q.enum.map (markLeft i now))
      = ((waitPairs q).filter (fun p => !(p.1 == i))).map (markLeft i now) := by
  unfold waitingQ waitPairs
  rw [List.filter_map, List.filter_filter]
  congr 1
  apply List.filter_congr
  intro p _
  by_cases h : (p.1 == i) = true
  · show ((markLeft i now p).status == Status.waiting) = _
    simp [markLeft, h]
  · show ((markLeft i now p).status == Status.waiting) = _
    simp [markLeft, h]

theorem filter_ne_fst_length {l : List (Nat × Entry)} (hnd : (l.map Prod.fst).Nodup)
    {i : Nat} {e : Entry} (hmem : (i, e) ∈ l) :
    (l.filter (fun p => !(p.1 == i))).length + 1 = l.length := by
  induction l with
  | nil => cases hmem
  | cons a rest ih =>
    rw [List.map_cons, List.nodup_cons] at hnd
    by_cases hai : a.1 = i
    · have hrest : rest.filter (fun p => !(p.1 == i)) = rest := by
        apply List.filter_eq_self.mpr
        intro b hb
        have hbne : b.1 ≠ i := by
          intro hbi
          apply hnd.1
          have : a.1 ∈ rest.map Prod.fst := by
            rw [hai, ← hbi]
            exact List.mem_map.mpr ⟨b, hb, rfl⟩
          exact this
        simp [hbne]
      rw [List.filter_cons]
      rw [show (!(a.1 == i)) = false by simp [hai]]
      simp [hrest]
    · rw [List.filter_cons]
      rw [show (!(a.1 == i)) = true by simp [hai], if_pos rfl]
      have hmem2 : (i, e) ∈ rest := by
        rcases List.mem_cons.mp hmem with h | h
        · exfalso
          apply hai
          rw [← h]
        · exact h
      have := ih hnd.2 hmem2
      simp only [List.length_cons]
      omega

theorem waitingQ_marked_length (q : List Entry) {i : Nat} {e : Entry} (now : Nat)
    (hmem : (i, e) ∈ waitPairs q) :
    (waitingQ (q.enum.map (markLeft i now))).length + 1 = (waitingQ q).length := by
  rw [waitingQ_marked, List.length_map, ← waitPairs_length]
  exact filter_ne_fst_length (map_fst_waitPairs_nodup q) hmem

theorem waitingPositionsQ_marked_nodup (q : List Entry) (i now : Nat)
    (hnd : (waitingPositionsQ q).Nodup) :
    (waitingPositionsQ (q.enum.map (markLeft i now))).Nodup := by
  unfold waitingPositionsQ
  rw [waitingQ_marked, List.map_map]
  have h1 : ((waitPairs q).filter (fun p => !(p.1 == i))).map (Entry.position ∘ markLeft i now)
      = ((waitPairs q).filter (fun p => !(p.1 == i))).map (fun p => p.2.position) :=
    List.map_congr_left (fun p _ => markLeft_position i now p)
  rw [h1]
  have hsub : (((waitPairs q).filter (fun p => !(p.1 == i))).map (fun p => p.2.position)).Sublist
      ((waitPairs q).map (fun p => p.2.position)) :=
    List.Sublist.map _ (List.filter_sublist _)
  rw [waitPairs_map_position] at hsub
  exact hsub.nodup hnd

/-- C2: when `leave_queue` succeeds it found an entry with the requested id
that was `waiting`; in the result that entry is marked `left` (with
`left_at` stamped) in the same queue slot, every other slot keeps its
status and id, the remaining waiting entries number one fewer and their
positions are exactly `1..N-1`, and no remaining waiting entry overtakes
another (relative position order among entries still waiting is
preserved). -/
theorem leave_queue_spec (loc : Location) (queue_id : Str) (now : Nat)
    (hpos : positionsOkQ loc.current_queue)
    (hsucc : (leave_queue loc queue_id now).1 = true) :
    ∃ (i : Nat) (e0 : Entry),
      loc.current_queue[i]? = some e0 ∧ e0.id = queue_id ∧ e0.status = Status.waiting ∧
      (leave_queue loc queue_id now).2.current_queue[i]?
        = some { e0 with status := Status.left, left_at := some now } ∧
      (leave_queue loc queue_id now).2.current_queue.length = loc.current_queue.length ∧
      (∀ (j : Nat) (ej fj : Entry), j ≠ i → loc.current_queue[j]? = some ej →
        (leave_queue loc queue_id now).2.current_queue[j]? = some fj →
        fj.status = ej.status ∧ fj.id = ej.id) ∧
      positionsOkQ (leave_queue loc queue_id now).2.current_queue ∧
      (waitingQ (leave_queue loc queue_id now).2.current_queue).length + 1
        = (waitingQ loc.current_queue).length ∧
      (∀ (j k : Nat) (ej ek fj fk : Entry),
        loc.current_queue[j]? = some ej → loc.current_queue[k]? = some ek →
        (leave_queue loc queue_id now).2.current_queue[j]? = some fj →
        (leave_queue loc queue_id now).2.current_queue[k]? = some fk →
        fj.status = Status.waiting → fk.status = Status.waiting →
        (fj.position < fk.position ↔ ej.position < ek.position)) := by
  cases hf : loc.current_queue.enum.find?
      (fun p => p.2.id == queue_id && p.2.status == Status.waiting) with
  | none =>
    simp only [leave_queue, hf] at hsucc
    exact Bool.noConfusion hsucc
  | some found =>
    have hq2 : (leave_queue loc queue_id now).2.current_queue
        = renumber (loc.current_queue.enum.map (markLeft found.1 now)) := by
      simp only [leave_queue, hf]
    have hfmem := List.mem_of_find?_eq_some hf
    have hfpred := List.find?_some hf
    have hqi : loc.current_queue[found.1]? = some found.2 :=
      List.mem_enum_iff_getElem?.mp hfmem
    have hid0 : found.2.id = queue_id ∧ found.2.status = Status.waiting := by
      simp only [Bool.and_eq_true, beq_iff_eq] at hfpred
      exact hfpred
    have hm_get : ∀ j : Nat,
        (loc.current_queue.enum.map (markLeft found.1 now))[j]?
          = loc.current_queue[j]?.map (fun e => markLeft found.1 now (j, e)) :=
      fun j => getElem?_enum_map _ _ j
    refine ⟨found.1, found.2, hqi, hid0.1, hid0.2, ?_, ?_, ?_, ?_, ?_, ?_⟩
    · rw [hq2, renumber_getElem?, hm_get, hqi]
      simp only [Option.map_some']
      have hml : markLeft found.1 now (found.1, found.2)
          = { found.2 with status := Status.left, left_at := some now } := by
        unfold markLeft
        rw [if_pos (by simp)]
    
      rw [hml]
      unfold renumberEntry
      rw [if_neg (by simp)]
    · rw [hq2, renumber_length, List.length_map, List.enum_length]
    · intro j ej fj hji hqj hfj
      rw [hq2, renumber_getElem?, hm_get, hqj, Option.map_some', Option.map_some'] at hfj
      injection hfj with hfj2
      have hmlj : markLeft found.1 now (j, ej) = ej := by
        unfold markLeft
        rw [if_neg (by simp [hji])]
      rw [hmlj] at hfj2
      constructor
      · rw [← hfj2, renumberEntry_status]
      · rw [← hfj2, renumberEntry_id]
    · rw [hq2]
      exact positionsOkQ_renumber _
    · rw [hq2, waitingQ_renumber_length]
      exact waitingQ_marked_length loc.current_queue now
        (show (found.1, found.2) ∈ waitPairs loc.current_queue from
          List.mem_filter.mpr ⟨hfmem, by simp [hid0.2]⟩)
    · intro j k ej ek fj fk hqj hqk hfj hfk hwj hwk
      rw [hq2] at hfj hfk
      have hmj : (loc.current_queue.enum.map (markLeft found.1 now))[j]?
          = some (markLeft found.1 now (j, ej)) := by
        rw [hm_get, hqj]
        rfl
      have hmk : (loc.current_queue.enum.map (markLeft found.1 now))[k]?
          = some (markLeft found.1 now (k, ek)) := by
        rw [hm_get, hqk]
        rfl
      have hiff := renumber_order (loc.current_queue.enum.map (markLeft found.1 now))
        (waitingPositionsQ_marked_nodup loc.current_queue found.1 now
          (positionsOkQ_nodup hpos))
        hmj hmk hfj hfk hwj hwk
      rw [markLeft_position, markLeft_position] at hiff
      exact hiff

/-- Witness for C2 at a concrete two-person queue. -/
theorem leave_queue_spec_witness :
    positionsOkQ locC8.current_queue ∧
    (leave_queue locC8 "z-aaaa".toList 3).1 = true ∧
    (∃ (i : Nat) (e0 : Entry),
      locC8.current_queue[i]? = some e0 ∧ e0.id = "z-aaaa".toList ∧
      e0.status = Status.waiting ∧
      (leave_queue locC8 "z-aaaa".toList 3).2.current_queue[i]?
        = some { e0 with status := Status.left, left_at := some 3 } ∧
      (leave_queue locC8 "z-aaaa".toList 3).2.current_queue.length
        = locC8.current_queue.length ∧
      (∀ (j : Nat) (ej fj : Entry), j ≠ i → locC8.current_queue[j]? = some ej →
        (leave_queue locC8 "z-aaaa".toList 3).2.current_queue[j]? = some fj →
        fj.status = ej.status ∧ fj.id = ej.id) ∧
      positionsOkQ (leave_queue locC8 "z-aaaa".toList 3).2.current_queue ∧
      (waitingQ (leave_queue locC8 "z-aaaa".toList 3).2.current_queue).length + 1
        = (waitingQ locC8.current_queue).length ∧
      (∀ (j k : Nat) (ej ek fj fk : Entry),
        locC8.current_queue[j]? = some ej → locC8.current_queue[k]? = some ek →
        (leave_queue locC8 "z-aaaa".toList 3).2.current_queue[j]? = some fj →
        (leave_queue locC8 "z-aaaa".toList 3).2.current_queue[k]? = some fk →
        fj.status = Status.waiting → fk.status = Status.waiting →
        (fj.position < fk.position ↔ ej.position < ek.position))) :=
  ⟨by decide, by decide, leave_queue_spec locC8 _ 3 (by decide) (by decide)⟩

/-! ## Claim C9 -/

theorem takeWhile_append_dash (xs ys : Str) :
    (xs ++ '-' :: ys).takeWhile (fun c => c != '-')
      = xs.takeWhile (fun c => c != '-') := by
  induction xs with
  | nil => simp
  | cons a rest ih =>
    by_cases h : (a != '-') = true
    · simp only [List.cons_append, List.takeWhile_cons, h, if_true, ih]
    · simp only [List.cons_append, List.takeWhile_cons, h, if_false]
      simp

/-- C9: for a known location whose entry-id prefix (the part before the
`'-'` separator) is not a prefix of any location id listed earlier in the
known-locations map, `get_location_from_queue_id` applied to an id returned
by `join_queue` at that location resolves back to that location's id. -/
theorem resolve_round_trip (pre post : List (Str × Location)) (lid : Str) (loc : Location)
    (user_name phone notes : Str) (receipt_path : Option Str) (unique_id : Str) (now : Nat)
    (hlid : loc.location_id = lid)
    (hpre : ∀ p ∈ pre,
      (((join_queue loc user_name phone notes receipt_path unique_id now).1.takeWhile
        (fun c => c != '-')).isPrefixOf p.1) = false) :
    get_location_from_queue_id (pre ++ (lid, loc) :: post)
      (join_queue loc user_name phone notes receipt_path unique_id now).1 = some lid := by
  have hqid : (join_queue loc user_name phone notes receipt_path unique_id now).1
      = lid.take 8 ++ ('-' :: unique_id.take 8) := by
    simp [join_queue, hlid]
  have hpart : (join_queue loc user_name phone notes receipt_path unique_id now).1.takeWhile
      (fun c => c != '-') = (lid.take 8).takeWhile (fun c => c != '-') := by
    rw [hqid, takeWhile_append_dash]
  have hprefix2 : ((lid.take 8).takeWhile (fun c => c != '-')) <+: lid :=
    (List.takeWhile_prefix _).trans (List.take_prefix 8 lid)
  have hbeq : (((lid.take 8).takeWhile (fun c => c != '-')).isPrefixOf lid) = true :=
    List.isPrefixOf_iff_prefix.mpr hprefix2
  have hnone : pre.find?
      (fun p => ((lid.take 8).takeWhile (fun c => c != '-')).isPrefixOf p.1) = none := by
    rw [List.find?_eq_none]
    intro x hx
    have h1 := hpre x hx
    rw [hpart] at h1
    simp [h1]
  have hhead : List.find?
      (fun p : Str × Location => ((lid.take 8).takeWhile (fun c => c != '-')).isPrefixOf p.1)
      ((lid, loc) :: post) = some (lid, loc) := by
    rw [List.find?_cons_of_pos]
    exact hbeq
  simp only [get_location_from_queue_id, hpart, List.find?_append, hnone, hhead,
    Option.none_or, Option.map_some']

/-- Witness for C9: one known location.  -/
theorem resolve_round_trip_witness :
    locC1.location_id = "loc00001".toList ∧
    (∀ p ∈ ([] : List (Str × Location)),
      (((join_queue locC1 "alice".toList [] [] none "aaaaaaaa".toList 1).1.takeWhile
        (fun c => c != '-')).isPrefixOf p.1) = false) ∧
    get_location_from_queue_id ([] ++ ("loc00001".toList, locC1) :: [])
      (join_queue locC1 "alice".toList [] [] none "aaaaaaaa".toList 1).1
      = some "loc00001".toList :=
  ⟨rfl, by decide,
   resolve_round_trip [] [] "loc00001".toList locC1 "alice".toList [] [] none
     "aaaaaaaa".toList 1 rfl (by decide)⟩

/-! ## Claim C6 -/

/-- C6 (counterexample): with DynamoDB configured and its write failing, a
join performs no local-file backup write and does not re-signal the
failure: the only attempted write is the failed DynamoDB put, and the
caller receives the ordinary `none` return value rather than a storage
error. -/
theorem write_failure_counterexample :
    (join_queue_io stC6 [("w0000001".toList, locC6)] "w0000001".toList
        "alice".toList [] [] none "aaaaaaaa".toList 1).1
      = [WriteEvent.dynamoPut false] ∧
    (∀ b : Bool, WriteEvent.filePut b ∉
      (join_queue_io stC6 [("w0000001".toList, locC6)] "w0000001".toList
        "alice".toList [] [] none "aaaaaaaa".toList 1).1) ∧
    (join_queue_io stC6 [("w0000001".toList, locC6)] "w0000001".toList
        "alice".toList [] [] none "aaaaaaaa".toList 1).2.1 = Except.ok none ∧
    (∀ u : Unit, (join_queue_io stC6 [("w0000001".toList, locC6)] "w0000001".toList
        "alice".toList [] [] none "aaaaaaaa".toList 1).2.1 ≠ Except.error u) := by
  refine ⟨by decide, ?_, by decide, ?_⟩
  · intro b
    cases b <;> decide
  · intro u
    cases u
    decide

/-- C6 (amended): when the primary DynamoDB write fails, `save_queues`
attempts the local-file backup and re-raises the failure; `create_location`
re-raises the failure but attempts no backup; and `join_queue`,
`leave_queue` and `serve_next` neither attempt a backup nor re-raise — they
catch the storage failure and report it only through their plain failure
return value (`none`/`false`). -/
theorem write_failure_behavior (st : Storage) (queues : List (Str × Location))
    (hdy : st.hasDynamo = true) (hfail : st.dynamoOk = false) (hne : queues ≠ []) :
    (WriteEvent.filePut st.fileOk ∈ (save_queues st queues).1 ∧
      (save_queues st queues).2 = Except.error ()) ∧
    (∀ (lid nme dsc : Str) (cap now : Nat),
      (create_location_io st queues lid nme dsc cap now).2.1 = Except.error () ∧
      ∀ b : Bool, WriteEvent.filePut b ∉
        (create_location_io st queues lid nme dsc cap now).1) ∧
    (∀ (lid u p n : Str) (rp : Option Str) (uid : Str) (now : Nat),
      (join_queue_io st queues lid u p n rp uid now).2.1 = Except.ok none ∧
      ∀ b : Bool, WriteEvent.filePut b ∉
        (join_queue_io st queues lid u p n rp uid now).1) ∧
    (∀ (lid qid : Str) (now : Nat),
      (leave_queue_io st queues lid qid now).2.1 = Except.ok false ∧
      ∀ b : Bool, WriteEvent.filePut b ∉
        (leave_queue_io st queues lid qid now).1) ∧
    (∀ (lid : Str) (now : Nat),
      (serve_next_io st queues lid now).2.1 = Except.ok none ∧
      ∀ b : Bool, WriteEvent.filePut b ∉
        (serve_next_io st queues lid now).1) := by
  obtain ⟨a, rest, rfl⟩ : ∃ a rest, queues = a :: rest := by
    cases queues with
    | nil => exact absurd rfl hne
    | cons a rest => exact ⟨a, rest, rfl⟩
  refine ⟨⟨?_, ?_⟩, ?_, ?_, ?_, ?_⟩
  · simp [save_queues, hdy, save_loop, hfail]
  · simp [save_queues, hdy, save_loop, hfail]
  · intro lid nme dsc cap now
    constructor
    · simp [create_location_io, hdy, dynamo_put, hfail]
    · intro b
      simp [create_location_io, hdy, dynamo_put, hfail]
  · intro lid u p n rp uid now
    cases hg : get_location (a :: rest) lid with
    | none =>
      constructor
      · simp [join_queue_io, hg]
      · intro b
        simp [join_queue_io, hg]
    | some loc =>
      constructor
      · simp [join_queue_io, hg, hdy, dynamo_put, hfail]
      · intro b
        simp [join_queue_io, hg, hdy, dynamo_put, hfail]
  · intro lid qid now
    cases hg : get_location (a :: rest) lid with
    | none =>
      constructor
      · simp [leave_queue_io, hg]
      · intro b
        simp [leave_queue_io, hg]
    | some loc =>
      by_cases hr : (leave_queue loc qid now).1 = true
      · constructor
        · simp [leave_queue_io, hg, hr, hdy, dynamo_put, hfail]
        · intro b
          simp [leave_queue_io, hg, hr, hdy, dynamo_put, hfail]
      · constructor
        · simp [leave_queue_io, hg, hr, hdy, dynamo_put, hfail]
        · intro b
          simp [leave_queue_io, hg, hr, hdy, dynamo_put, hfail]
  · intro lid now
    cases hg : get_location (a :: rest) lid with
    | none =>
      constructor
      · simp [serve_next_io, hg]
      · intro b
        simp [serve_next_io, hg]
    | some loc =>
      cases hs : (serve_next loc now).1 with
      | none =>
        constructor
        · simp [serve_next_io, hg, hs]
        · intro b
          simp [serve_next_io, hg, hs]
      | some e =>
        constructor
        · simp [serve_next_io, hg, hs, hdy, dynamo_put, hfail]
        · intro b
          simp [serve_next_io, hg, hs, hdy, dynamo_put, hfail]

/-- Witness for the amended C6 at a concrete failing-DynamoDB world. -/
theorem write_failure_behavior_witness :
    stC6.hasDynamo = true ∧ stC6.dynamoOk = false ∧
    ([("w0000001".toList, locC6)] : List (Str × Location)) ≠ [] ∧
    ((WriteEvent.filePut stC6.fileOk
        ∈ (save_queues stC6 [("w0000001".toList, locC6)]).1 ∧
      (save_queues stC6 [("w0000001".toList, locC6)]).2 = Except.error ()) ∧
    (∀ (lid nme dsc : Str) (cap now : Nat),
      (create_location_io stC6 [("w0000001".toList, locC6)] lid nme dsc cap now).2.1
        = Except.error () ∧
      ∀ b : Bool, WriteEvent.filePut b ∉
        (create_location_io stC6 [("w0000001".toList, locC6)] lid nme dsc cap now).1) ∧
    (∀ (lid u p n : Str) (rp : Option Str) (uid : Str) (now : Nat),
      (join_queue_io stC6 [("w0000001".toList, locC6)] lid u p n rp uid now).2.1
        = Except.ok none ∧
      ∀ b : Bool, WriteEvent.filePut b ∉
        (join_queue_io stC6 [("w0000001".toList, locC6)] lid u p n rp uid now).1) ∧
    (∀ (lid qid : Str) (now : Nat),
      (leave_queue_io stC6 [("w0000001".toList, locC6)] lid qid now).2.1
        = Except.ok false ∧
      ∀ b : Bool, WriteEvent.filePut b ∉
        (leave_queue_io stC6 [("w0000001".toList, locC6)] lid qid now).1) ∧
    (∀ (lid : Str) (now : Nat),
      (serve_next_io stC6 [("w0000001".toList, locC6)] lid now).2.1 = Except.ok none ∧
      ∀ b : Bool, WriteEvent.filePut b ∉
        (serve_next_io stC6 [("w0000001".toList, locC6)] lid now).1)) :=
  ⟨rfl, rfl, by decide,
   write_failure_behavior stC6 [("w0000001".toList, locC6)] rfl rfl (by decide)⟩
